import Mathlib

/-!
Shallow embedding of the safepeer signaling worker
(`worker/src/room.js` + `worker/src/index.js`, hardened revision):
the room-code codec, the `Room` durable object (join, message dispatch,
rate limiting, close/error handlers) and the `ConnectionLimiter`
durable object (per-IP room quota with TTL pruning).

Conventions of the embedding:
* JS strings are Lean `String`s (the inputs relevant here are ASCII,
  so `String.length` matches the JS UTF-16 length and `Char.toUpper`
  matches `toUpperCase`).
* `Date.now()` is an explicit `now : Nat` parameter (milliseconds).
* JS `Map`s are association lists, updated in insertion order like the
  source ones.
* WebSockets are identified by `Nat` tokens; a `send` is recorded as a
  `(socket, message)` attempt, matching the fire-and-forget sends of
  the source.
* `JSON.parse` results are modelled by the record of fields the handler
  inspects (`type`, `to`, `sdp`, `candidate`, `text`), each of which is
  either absent, a string, or a non-string JSON value.
-/

/-! ## Room code codec (`room.js` lines 7-44) -/

/-- Source: `const ROOM_CODE_CHARSET = 'ABCDEFGHJKMNPQRSTUVWXYZ23456789'` -/
def ROOM_CODE_CHARSET : String := "ABCDEFGHJKMNPQRSTUVWXYZ23456789"

/-- JS `ROOM_CODE_CHARSET[n]`.  In the source the index is always
`byte % ROOM_CODE_CHARSET.length`, hence in range; the default is never
reached. -/
def roomCodeCharAt (n : Nat) : Char := ROOM_CODE_CHARSET.toList.getD n 'A'

/-- Source `generateRoomCode()`: 8 random bytes, each reduced modulo the charset
length and mapped to a charset symbol; the 8 symbols are displayed as
`XXXX-XXXX` (`code.slice(0, 4) + '-' + code.slice(4)`).  The bytes from
`crypto.getRandomValues` are the explicit argument. -/
def generateRoomCode (bytes : Fin 8 → Nat) : String :=
  let code : String :=
    (List.ofFn (fun i : Fin 8 => roomCodeCharAt (bytes i % ROOM_CODE_CHARSET.length))).asString
  code.take 4 ++ "-" ++ code.drop 4

/-- The characters removed by `input.replace(/[-\s]/g, '')`: the dash and
(ASCII) whitespace. -/
def isStrippedChar (c : Char) : Bool :=
  c = '-' || c = ' ' || c = '\t' || c = '\n' || c = '\r' || c = '\x0b' || c = '\x0c'

/-- The cleaning step of `parseRoomCode`:
`input.replace(/[-\s]/g, '').toUpperCase()`. -/
def cleanCode (s : String) : String :=
  ((s.toList.filter (fun c => !(isStrippedChar c))).map Char.toUpper).asString

/-- Source `parseRoomCode(input)` (hardened revision, with the 20-character quick
reject).  `!input` rejects the empty string; the length guard returns
before the per-character alphabet loop runs. -/
def parseRoomCode (input : String) : Option String :=
  if input = "" then none
  else if input.length > 20 then none
  else
    let cleaned := cleanCode input
    if cleaned.length ≠ 8 then none
    else if cleaned.toList.all (fun ch => ROOM_CODE_CHARSET.toList.contains ch) then some cleaned
    else none

/-- Source `formatRoomCode(canonical)`: `canonical.slice(0, 4) + '-' + canonical.slice(4)`. -/
def formatRoomCode (canonical : String) : String :=
  canonical.take 4 ++ "-" ++ canonical.drop 4

/-! ## Security constants (`room.js` lines 58-67) -/

def MAX_MESSAGE_SIZE : Nat := 65536
def MAX_SDP_SIZE : Nat := 16384
def MAX_ICE_SIZE : Nat := 2048
def MAX_CHAT_TEXT : Nat := 4096
def MAX_PEERS_PER_ROOM : Nat := 20
def PEER_MSG_LIMIT : Nat := 30
def PEER_MSG_WINDOW : Nat := 10000
def MAX_ROOMS_PER_IP : Nat := 10
def CONNECTION_TTL : Nat := 2 * 60 * 60000

/-! ## Association-list maps (JS `Map` with string keys) -/

/-- JS `map.get(k)` on a JS `Map` modelled as an association list. -/
def alGet {α : Type} (m : List (String × α)) (k : String) : Option α :=
  (m.find? (fun p => p.1 = k)).map Prod.snd

/-- JS `map.set(k, v)`: replace in place if the key is present, else append
(JS `Map` keeps insertion order). -/
def alSet {α : Type} (m : List (String × α)) (k : String) (v : α) : List (String × α) :=
  match m with
  | [] => [(k, v)]
  | p :: rest => if p.1 = k then (k, v) :: rest else p :: alSet rest k v

/-- JS `map.delete(k)`. -/
def alDel {α : Type} (m : List (String × α)) (k : String) : List (String × α) :=
  m.filter (fun p => p.1 ≠ k)

/-! ## The `Room` durable object (`room.js` lines 71-338) -/

/-- The attachment stored on each accepted socket by
`server.serializeAttachment({ peerId, displayName, clientIP, roomCode })`. -/
structure SessionInfo where
  peerId : String
  displayName : String
  clientIP : String
  roomCode : String
deriving DecidableEq, Repr

/-- A per-peer rate-limit window `{ count, windowStart }`. -/
structure RateEntry where
  count : Nat
  windowStart : Nat
deriving DecidableEq, Repr

/-- The in-memory state of one `Room` instance: the accepted websockets
(`this.state.getWebSockets()`, in acceptance order, each with its
attachment), the `nextId` counter, and the `peerRates` map.  (The
`sessions` map assigned in the constructor is never used by any method
and is omitted.) -/
structure Room where
  sockets : List (Nat × Option SessionInfo)
  nextId : Nat
  peerRates : List (String × RateEntry)
deriving DecidableEq, Repr

/-- A fresh instance: `sessions`/`peerRates` empty, `nextId = 1`, no
accepted sockets. -/
def Room.init : Room := { sockets := [], nextId := 1, peerRates := [] }

/-- The member list entries `{ peerId, displayName }` used in `welcome`. -/
structure MemberInfo where
  peerId : String
  displayName : String
deriving DecidableEq, Repr

/-- A JSON value occupying one of the fields the handlers inspect:
absent (`undefined`), a string, or some non-string JSON value with the
given JS truthiness. -/
inductive JField where
  | absent
  | str (s : String)
  | other (truthy : Bool)
deriving DecidableEq, Repr

/-- The `candidate` field of an `ice-candidate` message: absent, or a
JSON value with the given truthiness whose `JSON.stringify` output has
the given length. -/
inductive JCand where
  | absent
  | val (truthy : Bool) (serLen : Nat)
deriving DecidableEq, Repr

/-- JS `JSON.stringify(data.candidate || '').length`: a falsy or absent
candidate is replaced by `''`, which stringifies to the 2-character
`""`. -/
def JCand.orEmptyLen : JCand → Nat
  | .val true n => n
  | _ => 2

/-- The decoded fields of a client frame, as inspected by
`webSocketMessage` after `JSON.parse`. -/
structure ClientData where
  type : JField
  «to» : JField
  sdp : JField
  candidate : JCand
  text : JField
deriving DecidableEq, Repr

/-- An incoming websocket frame: whether it is a string frame, its JS
length, and the result of `JSON.parse` on it (`none` = parse throws). -/
structure Frame where
  isString : Bool
  length : Nat
  parsed : Option ClientData
deriving DecidableEq, Repr

/-- The server→client messages this layer emits. -/
inductive ServerMsg where
  | welcome (peerId : String) (members : List MemberInfo)
  | peerJoined (peerId : String) (displayName : String)
  | peerLeft (peerId : String)
  | forwardSdp (type : String) («from» : String) (sdp : String)
  | forwardIce («from» : String) (candidate : JCand)
  | chatRelay («from» : String) (sender : String) (text : String) (timestamp : Nat)
  | error (message : String)
deriving DecidableEq, Repr

/-- JS `ws.deserializeAttachment()` for the socket `ws` of this room. -/
def Room.attachmentOf (r : Room) (ws : Nat) : Option SessionInfo :=
  match (r.sockets.find? (fun p => p.1 = ws)).map Prod.snd with
  | some a => a
  | none => none

/-- Source `Room.prototype.isPeerAllowed` (lines 85-100): sliding-window rate
check, returning the boolean together with the mutated state. -/
def Room.isPeerAllowed (r : Room) (peerId : String) (now : Nat) : Bool × Room :=
  match alGet r.peerRates peerId with
  | none => (true, { r with peerRates := alSet r.peerRates peerId ⟨1, now⟩ })
  | some entry =>
    if now - entry.windowStart > PEER_MSG_WINDOW then
      (true, { r with peerRates := alSet r.peerRates peerId ⟨1, now⟩ })
    else if entry.count ≥ PEER_MSG_LIMIT then
      (false, r)
    else
      (true, { r with peerRates := alSet r.peerRates peerId ⟨entry.count + 1, entry.windowStart⟩ })

/-- Source `Room.prototype.findPeerSocket` (lines 313-321): first accepted
socket whose attachment carries the given peer id. -/
def Room.findPeerSocket (r : Room) (peerId : String) : Option Nat :=
  (r.sockets.find? (fun p =>
    match p.2 with
    | some info => info.peerId = peerId
    | none => false)).map Prod.fst

/-- Source `Room.prototype.broadcast` (lines 326-337): a send attempt to every
accepted socket except `exclude`; per-socket send failures are caught
and ignored, so every attempt is recorded. -/
def Room.broadcast (r : Room) (msg : ServerMsg) (exclude : Nat) : List (Nat × ServerMsg) :=
  r.sockets.filterMap (fun p => if p.1 = exclude then none else some (p.1, msg))

/-- JS `x || d` for an optional string (`null` and `''` are falsy). -/
def jsOrStr (o : Option String) (d : String) : String :=
  match o with
  | none => d
  | some s => if s = "" then d else s

/-- The member snapshot `existingMembers` built in `fetch` from the
currently accepted sockets. -/
def Room.memberList (r : Room) : List MemberInfo :=
  r.sockets.filterMap (fun p => p.2.map (fun info => ⟨info.peerId, info.displayName⟩))

/-- The peer id string `'peer-' + n`. -/
def mkPeerId (n : Nat) : String := "peer-" ++ toString n

/-- Result of `Room.fetch`: the 403 `Room is full` rejection, or the 101
upgrade with the assigned peer id and the sends it performed. -/
inductive JoinResult where
  | roomFull
  | accepted (peerId : String) (sends : List (Nat × ServerMsg))
deriving DecidableEq, Repr

/-- Source `Room.prototype.fetch` (lines 102-156): capacity check against the
accepted sockets, then assign `peer-<nextId>`, snapshot the member list,
accept the socket with its attachment, send `welcome` to the newcomer
and broadcast `peer-joined` to everyone else.  The query parameters
`name`, `ip`, `room` and the fresh socket token are the arguments. -/
def Room.fetch (r : Room) (name ip room : Option String) (newSock : Nat) :
    Room × JoinResult :=
  let displayName := (jsOrStr name "Anonymous").take 32
  let clientIP := jsOrStr ip "unknown"
  let roomCode := jsOrStr room ""
  if r.sockets.length ≥ MAX_PEERS_PER_ROOM then
    (r, .roomFull)
  else
    let peerId := mkPeerId r.nextId
    let existingMembers := r.memberList
    let r1 : Room :=
      { r with
        nextId := r.nextId + 1
        sockets := r.sockets ++ [(newSock, some ⟨peerId, displayName, clientIP, roomCode⟩)] }
    let sends := (newSock, ServerMsg.welcome peerId existingMembers) ::
      r1.broadcast (.peerJoined peerId displayName) newSock
    (r1, .accepted peerId sends)

/-- The `switch (data.type)` dispatch of `webSocketMessage` (lines
186-257), entered after the rate check; it never touches the room state,
only emits sends. -/
def Room.dispatch (r : Room) (ws : Nat) (info : SessionInfo) (data : ClientData) (now : Nat) :
    List (Nat × ServerMsg) :=
  match data.type with
  | .str t =>
    if t = "offer" ∨ t = "answer" ∨ t = "ice-candidate" then
      -- validate the `to` field: `!targetId || typeof targetId !== 'string' || targetId.length > 32`
      match data.«to» with
      | .str s =>
        if s = "" ∨ s.length > 32 then [(ws, .error "Invalid target")]
        else
          match r.findPeerSocket s with
          | none => [(ws, .error "Failed to deliver message")]
          | some target =>
            if t = "offer" ∨ t = "answer" then
              match data.sdp with
              | .str sdp =>
                if sdp.length > MAX_SDP_SIZE then [(ws, .error "Invalid SDP")]
                else [(target, .forwardSdp t info.peerId sdp)]
              | _ => [(ws, .error "Invalid SDP")]
            else
              if data.candidate.orEmptyLen > MAX_ICE_SIZE then
                [(ws, .error "Invalid ICE candidate")]
              else [(target, .forwardIce info.peerId data.candidate)]
      | _ => [(ws, .error "Invalid target")]
    else if t = "chat" then
      match data.text with
      | .str txt =>
        if txt = "" ∨ txt.length > MAX_CHAT_TEXT then [(ws, .error "Invalid message text")]
        else r.broadcast (.chatRelay info.peerId info.displayName (txt.take MAX_CHAT_TEXT) (now / 1000)) ws
      | _ => [(ws, .error "Invalid message text")]
    else [(ws, .error "Unknown message type")]
  | _ => [(ws, .error "Invalid message")]

/-- Source `Room.prototype.webSocketMessage` (lines 161-258): size guard on
string frames, JSON parse, sender lookup, per-peer rate limit, then the
type dispatch. -/
def Room.webSocketMessage (r : Room) (ws : Nat) (frame : Frame) (now : Nat) :
    Room × List (Nat × ServerMsg) :=
  if frame.isString ∧ frame.length > MAX_MESSAGE_SIZE then
    (r, [(ws, .error "Message too large")])
  else
    match frame.parsed with
    | none => (r, [(ws, .error "Invalid message")])
    | some data =>
      match r.attachmentOf ws with
      | none => (r, [])
      | some info =>
        let res := r.isPeerAllowed info.peerId now
        if !res.1 then
          (res.2, [(ws, .error "Rate limited. Slow down.")])
        else
          (res.2, res.2.dispatch ws info data now)

/-- Outcome of the remote `limiterStub.fetch` call made by
`notifyDisconnect`: it may succeed, return an error, or fail to reach
the shard altogether. -/
inductive NotifyOutcome where
  | success
  | failure
  | unreachable
deriving DecidableEq, Repr

/-- Source `Room.prototype.notifyDisconnect` (lines 296-308): skip when ip/room
are unusable, otherwise perform the remote call and swallow every
failure with the surrounding `try { ... } catch { }`. -/
def Room.notifyDisconnect (clientIP roomCode : String) (outcome : NotifyOutcome) : Unit :=
  if clientIP = "" ∨ roomCode = "" ∨ clientIP = "unknown" then ()
  else
    let attempt : Except Unit Unit :=
      match outcome with
      | .success => .ok ()
      | .failure => .error ()
      | .unreachable => .error ()
    match attempt with
    | .ok _ => ()
    | .error _ => ()

/-- Source `Room.prototype.webSocketClose` (lines 263-274): drop the rate
window, broadcast `peer-left`, then best-effort notify the quota shard. -/
def Room.webSocketClose (r : Room) (ws : Nat) (outcome : NotifyOutcome) :
    Room × List (Nat × ServerMsg) :=
  match r.attachmentOf ws with
  | none => (r, [])
  | some info =>
    let r1 := { r with peerRates := alDel r.peerRates info.peerId }
    let sends := r1.broadcast (.peerLeft info.peerId) ws
    let _ := Room.notifyDisconnect info.clientIP info.roomCode outcome
    (r1, sends)

/-- Source `Room.prototype.webSocketError` (lines 279-290): identical body to
`webSocketClose`. -/
def Room.webSocketError (r : Room) (ws : Nat) (outcome : NotifyOutcome) :
    Room × List (Nat × ServerMsg) :=
  match r.attachmentOf ws with
  | none => (r, [])
  | some info =>
    let r1 := { r with peerRates := alDel r.peerRates info.peerId }
    let sends := r1.broadcast (.peerLeft info.peerId) ws
    let _ := Room.notifyDisconnect info.clientIP info.roomCode outcome
    (r1, sends)

/-! ## The `ConnectionLimiter` durable object (`room.js` lines 346-432) -/

/-- State of one quota shard: `ip → Map<roomCode, joinedAt>`. -/
structure ConnectionLimiter where
  connections : List (String × List (String × Nat))
deriving DecidableEq, Repr

/-- Source `ConnectionLimiter.prototype.pruneExpired` (lines 421-431): drop this
IP's entries older than `CONNECTION_TTL`, and drop the IP key entirely
when none remain. -/
def ConnectionLimiter.pruneExpired (cl : ConnectionLimiter) (ip : String) (now : Nat) :
    ConnectionLimiter :=
  match alGet cl.connections ip with
  | none => cl
  | some rooms =>
    let rooms1 := rooms.filter (fun p => !(now - p.2 > CONNECTION_TTL))
    if rooms1.length = 0 then ⟨alDel cl.connections ip⟩
    else ⟨alSet cl.connections ip rooms1⟩

/-- The request path dispatched by `ConnectionLimiter.fetch`. -/
inductive LimiterPath where
  | check
  | connect
  | disconnect
  | other
deriving DecidableEq, Repr

/-- The parsed JSON body of a limiter request: the `ip` and `roomCode`
fields as the handler sees them. -/
structure LimiterBody where
  ip : JField
  roomCode : JField
deriving DecidableEq, Repr

/-- Responses of `ConnectionLimiter.fetch`. -/
inductive LimiterResp where
  | badRequest (err : String)
  | checkOk (allowed : Bool) (count : Nat) (limit : Nat)
  | ok
  | notFound
deriving DecidableEq, Repr

/-- JS truthiness of a `JField`. -/
def JField.isTruthy : JField → Bool
  | .absent => false
  | .str s => s ≠ ""
  | .other t => t

/-- Source `ConnectionLimiter.prototype.fetch` (lines 354-416): parse the body,
require a string `ip`, then dispatch on the path.  `/check` prunes this
IP first and reports `{allowed, count, limit}`; `/connect` records
`joinedAt = now` (requiring a string `roomCode`); `/disconnect` deletes
the entry (requiring only a truthy `roomCode`) and drops an emptied IP
key. -/
def ConnectionLimiter.fetch (cl : ConnectionLimiter) (path : LimiterPath)
    (body : Option LimiterBody) (now : Nat) : ConnectionLimiter × LimiterResp :=
  match body with
  | none => (cl, .badRequest "Invalid request")
  | some b =>
    match b.ip with
    | .str ip =>
      if ip = "" then (cl, .badRequest "Missing IP")
      else
        match path with
        | .check =>
          let cl1 := cl.pruneExpired ip now
          let count := match alGet cl1.connections ip with
            | some rooms => rooms.length
            | none => 0
          (cl1, .checkOk (count < MAX_ROOMS_PER_IP) count MAX_ROOMS_PER_IP)
        | .connect =>
          match b.roomCode with
          | .str rc =>
            if rc = "" then (cl, .badRequest "Missing roomCode")
            else
              let rooms := (alGet cl.connections ip).getD []
              (⟨alSet cl.connections ip (alSet rooms rc now)⟩, .ok)
          | _ => (cl, .badRequest "Missing roomCode")
        | .disconnect =>
          if !b.roomCode.isTruthy then (cl, .badRequest "Missing roomCode")
          else
            match alGet cl.connections ip with
            | none => (cl, .ok)
            | some rooms =>
              -- `rooms.delete(roomCode)`: a non-string truthy roomCode
              -- matches no string key and deletes nothing.
              let rooms1 := match b.roomCode with
                | .str rc => alDel rooms rc
                | _ => rooms
              if rooms1.length = 0 then (⟨alDel cl.connections ip⟩, .ok)
              else (⟨alSet cl.connections ip rooms1⟩, .ok)
        | .other => (cl, .notFound)
    | _ => (cl, .badRequest "Missing IP")

/-- The characters of the decimal representation of `n`. -/
def natDecimalChars (n : Nat) : List Char :=
  if n = 0 then ['0'] else ((Nat.digits 10 n).map Nat.digitChar).reverse


/-! ## Derived definitions used by the claims -/

/-- Iterate `isPeerAllowed` for one peer over a list of message
timestamps, collecting the verdicts. -/
def Room.rateRun : Room → String → List Nat → List Bool × Room
  | r, _, [] => ([], r)
  | r, p, t :: rest =>
    let res := r.isPeerAllowed p t
    let res2 := Room.rateRun res.2 p rest
    (res.1 :: res2.1, res2.2)

/-- Invariant of reachable `Room` states: every attached peer id was
minted as `'peer-' + k` for some counter value `k` below `nextId`. -/
def Room.Inv (r : Room) : Prop :=
  ∀ p ∈ r.sockets, ∀ info, p.2 = some info → ∃ k, k < r.nextId ∧ info.peerId = mkPeerId k

/-- The entries of one IP that are within `CONNECTION_TTL` of `now`
(the complement of what `pruneExpired` deletes). -/
def liveRooms (cl : ConnectionLimiter) (ip : String) (now : Nat) : List (String × Nat) :=
  ((alGet cl.connections ip).getD []).filter (fun p => !(now - p.2 > CONNECTION_TTL))

/-! ### Concrete fixtures for witnesses and counterexamples -/

/-- A room in which `peer-1` (Alice) has joined. -/
def roomA : Room :=
  { sockets := [(1, some ⟨"peer-1", "Alice", "ip1", "GATE2345"⟩)]
    nextId := 2
    peerRates := [] }

/-- A room holding Alice (`peer-1` on socket 1) and Bob (`peer-2` on
socket 2). -/
def roomAB : Room :=
  { sockets := [(1, some ⟨"peer-1", "Alice", "ip1", "GATE2345"⟩),
                (2, some ⟨"peer-2", "Bob", "ip2", "GATE2345"⟩)]
    nextId := 3
    peerRates := [] }

/-- A room already holding `MAX_PEERS_PER_ROOM` attached sockets. -/
def roomFull20 : Room :=
  { sockets := (List.range MAX_PEERS_PER_ROOM).map
      (fun i => (i + 1, some ⟨mkPeerId (i + 1), "peer", "ip", "GATE2345"⟩))
    nextId := MAX_PEERS_PER_ROOM + 1
    peerRates := [] }

/-- A well-formed `offer` frame addressed to `target`. -/
def offerFrame (target : String) : Frame :=
  { isString := true
    length := 64
    parsed := some
      { type := .str "offer"
        «to» := .str target
        sdp := .str "v=0 sdp"
        candidate := .absent
        text := .absent } }

/-- A quota shard in which `1.2.3.4` holds one stale entry (joined at
time 0) and one live entry. -/
def limiterStale : ConnectionLimiter :=
  ⟨[("1.2.3.4", [("ROOMAAAA", 0), ("ROOMBBBB", 1)])]⟩

theorem alGet_alSet_self {α : Type} (m : List (String × α)) (k : String) (v : α) :
    alGet (alSet m k v) k = some v := by
  induction m with
  | nil => simp [alGet, alSet]
  | cons p rest ih =>
    by_cases h : p.1 = k
    · simp [alGet, alSet, h]
    · simp only [alSet, h, if_false]
      simp only [alGet, List.find?, h, decide_eq_true_eq] at ih ⊢
      simpa [h] using ih

theorem alGet_alDel_self {α : Type} (m : List (String × α)) (k : String) :
    alGet (alDel m k) k = none := by
  induction m with
  | nil => simp [alGet, alDel]
  | cons p rest ih =>
    by_cases h : p.1 = k
    · simp [alGet, alDel, h, List.filter, ih]
    · simp only [alGet, alDel, List.filter_cons] at ih ⊢
      simp [alGet, h, ih, List.find?]


/-! ## Decimal representation of `Nat`: `mkPeerId` is injective

The peer ids are the strings `'peer-' + n`; distinctness of ids assigned
from distinct counter values reduces to injectivity of the decimal
representation used by string concatenation. -/

theorem toDigitsCore_eq_natDecimalChars (fuel : Nat) :
    ∀ (n : Nat) (acc : List Char), n < fuel →
      Nat.toDigitsCore 10 fuel n acc = natDecimalChars n ++ acc := by
  induction fuel with
  | zero => intro n acc h; exact absurd h (Nat.not_lt_zero n)
  | succ fuel ih =>
    intro n acc h
    by_cases h0 : n = 0
    · subst h0
      simp [Nat.toDigitsCore, natDecimalChars, Nat.digitChar]
    by_cases hdiv : n / 10 = 0
    · have hlt : n < 10 := (Nat.div_eq_zero_iff (by norm_num)).mp hdiv
      have hdig : Nat.digits 10 n = [n] := by
        rw [Nat.digits_def' (by norm_num : 1 < 10) (Nat.pos_of_ne_zero h0)]
        rw [Nat.mod_eq_of_lt hlt, hdiv, Nat.digits_zero]
      simp [Nat.toDigitsCore, hdiv, natDecimalChars, h0, hdig, Nat.mod_eq_of_lt hlt]
    · have hn10 : 10 ≤ n := by
        by_contra hc
        exact hdiv (Nat.div_eq_of_lt (Nat.lt_of_not_le hc))
      have hstep : Nat.toDigitsCore 10 (fuel + 1) n acc =
          Nat.toDigitsCore 10 fuel (n / 10) (Nat.digitChar (n % 10) :: acc) := by
        simp [Nat.toDigitsCore, hdiv]
      have hfuel : n / 10 < fuel := by
        have h1 : n / 10 < n := Nat.div_lt_self (Nat.pos_of_ne_zero h0) (by norm_num)
        omega
      rw [hstep, ih (n / 10) (Nat.digitChar (n % 10) :: acc) hfuel]
      have hdig : Nat.digits 10 n = n % 10 :: Nat.digits 10 (n / 10) :=
        Nat.digits_def' (by norm_num : 1 < 10) (Nat.pos_of_ne_zero h0)
      simp [natDecimalChars, h0, hdiv, hdig, List.append_assoc]

theorem repr_eq_natDecimalChars (n : Nat) : Nat.repr n = (natDecimalChars n).asString := by
  have h : Nat.toDigits 10 n = natDecimalChars n := by
    have := toDigitsCore_eq_natDecimalChars (n + 1) n [] (Nat.lt_succ_self n)
    simpa [Nat.toDigits] using this
  simp [Nat.repr, h]

theorem digitChar_inj_of_lt {a b : Nat} (ha : a < 10) (hb : b < 10)
    (h : Nat.digitChar a = Nat.digitChar b) : a = b := by
  interval_cases a <;> interval_cases b <;> revert h <;> decide

theorem map_digitChar_inj : ∀ (l1 l2 : List Nat), (∀ d ∈ l1, d < 10) → (∀ d ∈ l2, d < 10) →
    l1.map Nat.digitChar = l2.map Nat.digitChar → l1 = l2 := by
  intro l1
  induction l1 with
  | nil => intro l2 _ _ h; cases l2 <;> simp_all
  | cons a t ih =>
    intro l2 h1 h2 h
    cases l2 with
    | nil => simp_all
    | cons b t2 =>
      simp only [List.map_cons, List.cons.injEq] at h
      have ha : a = b := digitChar_inj_of_lt (h1 a (by simp)) (h2 b (by simp)) h.1
      have ht : t = t2 := ih t2 (fun d hd => h1 d (by simp [hd])) (fun d hd => h2 d (by simp [hd])) h.2
      simp [ha, ht]

theorem natDecimalChars_inj {m n : Nat} (h : natDecimalChars m = natDecimalChars n) : m = n := by
  by_cases hm : m = 0 <;> by_cases hn : n = 0
  · omega
  · exfalso
    simp only [natDecimalChars, hm, hn, if_true, if_false] at h
    have h1 : (Nat.digits 10 n).map Nat.digitChar = ['0'] := by
      have := congrArg List.reverse h
      simpa using this.symm
    obtain ⟨d, hd1, hd2⟩ : ∃ d, Nat.digits 10 n = [d] ∧ Nat.digitChar d = '0' := by
      cases hdig : Nat.digits 10 n with
      | nil => simp [hdig] at h1
      | cons x t =>
        cases t with
        | nil => simp [hdig] at h1; exact ⟨x, rfl, h1⟩
        | cons y t2 => simp [hdig] at h1
    have hdlt : d < 10 := Nat.digits_lt_base (by norm_num) (by rw [hd1]; exact List.mem_singleton_self d)
    have : d = 0 := digitChar_inj_of_lt hdlt (by norm_num) (by rw [hd2]; decide)
    subst this
    have := Nat.getLast_digit_ne_zero 10 hn
    simp [hd1] at this
  · exfalso
    simp only [natDecimalChars, hm, hn, if_true, if_false] at h
    have h1 : (Nat.digits 10 m).map Nat.digitChar = ['0'] := by
      have := congrArg List.reverse h
      simpa using this
    obtain ⟨d, hd1, hd2⟩ : ∃ d, Nat.digits 10 m = [d] ∧ Nat.digitChar d = '0' := by
      cases hdig : Nat.digits 10 m with
      | nil => simp [hdig] at h1
      | cons x t =>
        cases t with
        | nil => simp [hdig] at h1; exact ⟨x, rfl, h1⟩
        | cons y t2 => simp [hdig] at h1
    have hdlt : d < 10 := Nat.digits_lt_base (by norm_num) (by rw [hd1]; exact List.mem_singleton_self d)
    have : d = 0 := digitChar_inj_of_lt hdlt (by norm_num) (by rw [hd2]; decide)
    subst this
    have := Nat.getLast_digit_ne_zero 10 hm
    simp [hd1] at this
  · simp only [natDecimalChars, hm, hn, if_false] at h
    have h1 := congrArg List.reverse h
    simp only [List.reverse_reverse] at h1
    have h2 : Nat.digits 10 m = Nat.digits 10 n :=
      map_digitChar_inj _ _ (fun d hd => Nat.digits_lt_base (by norm_num) hd)
        (fun d hd => Nat.digits_lt_base (by norm_num) hd) h1
    calc m = Nat.ofDigits 10 (Nat.digits 10 m) := (Nat.ofDigits_digits 10 m).symm
    _ = Nat.ofDigits 10 (Nat.digits 10 n) := by rw [h2]
    _ = n := Nat.ofDigits_digits 10 n

theorem natToString_inj {m n : Nat} (h : toString m = toString n) : m = n := by
  have h1 : Nat.repr m = Nat.repr n := h
  rw [repr_eq_natDecimalChars, repr_eq_natDecimalChars] at h1
  exact natDecimalChars_inj (List.asString_inj.mp h1)

theorem mkPeerId_inj {m n : Nat} (h : mkPeerId m = mkPeerId n) : m = n := by
  have h1 : ("peer-" ++ toString m).data = ("peer-" ++ toString n).data := by
    simpa [mkPeerId] using congrArg String.data h
  simp only [String.data_append] at h1
  have h2 : (toString m : String).data = (toString n : String).data :=
    List.append_cancel_left h1
  exact natToString_inj (by
    cases hs : (toString m : String)
    cases ht : (toString n : String)
    simp_all)

/-! ## Claim C7: `parseRoomCode` validation -/

/-- Case analysis of `parseRoomCode` shared by the codec claims. -/
theorem parseRoomCode_cases (input : String) :
    (input.length > 20 → parseRoomCode input = none) ∧
    ((cleanCode input).length ≠ 8 → parseRoomCode input = none) ∧
    ((∃ ch ∈ (cleanCode input).toList, ch ∉ ROOM_CODE_CHARSET.toList) →
      parseRoomCode input = none) ∧
    (input.length ≤ 20 → (cleanCode input).length = 8 →
      (∀ ch ∈ (cleanCode input).toList, ch ∈ ROOM_CODE_CHARSET.toList) →
      parseRoomCode input = some (cleanCode input)) := by
  refine ⟨?_, ?_, ?_, ?_⟩
  · intro h
    by_cases he : input = ""
    · subst he; simp at h
    · simp [parseRoomCode, he, h]
  · intro h
    by_cases he : input = ""
    · simp [parseRoomCode, he]
    · by_cases h20 : input.length > 20
      · simp [parseRoomCode, he, h20]
      · simp [parseRoomCode, he, h20, h]
  · rintro ⟨ch, hch, hnotin⟩
    by_cases he : input = ""
    · simp [parseRoomCode, he]
    · by_cases h20 : input.length > 20
      · simp [parseRoomCode, he, h20]
      · by_cases hlen : (cleanCode input).length = 8
        · simp [parseRoomCode, he, h20, hlen]
          exact ⟨ch, hch, hnotin⟩
        · simp [parseRoomCode, he, h20, hlen]
  · intro h20 hlen hall
    have he : input ≠ "" := by
      intro he; subst he
      simp [cleanCode] at hlen
    have hall2 : (cleanCode input).toList.all
        (fun c => ROOM_CODE_CHARSET.toList.contains c) = true := by
      simp only [List.all_eq_true]
      intro c hc
      simpa using hall c hc
    simp [parseRoomCode, he, Nat.not_lt.mpr h20, hlen, hall2]
    exact fun c hc => hall c hc

/-- C7: Parse returns Invalid for every input whose raw length exceeds
20 characters (the guard returns before the per-character alphabet loop
in the definition), for every input whose cleaned form has length ≠ 8,
and for every input whose cleaned form contains a character outside the
room-code alphabet; every other input yields the cleaned 8-character
canonical form. -/
theorem parseRoomCode_spec (input : String) :
    (input.length > 20 → parseRoomCode input = none) ∧
    ((cleanCode input).length ≠ 8 → parseRoomCode input = none) ∧
    ((∃ ch ∈ (cleanCode input).toList, ch ∉ ROOM_CODE_CHARSET.toList) →
      parseRoomCode input = none) ∧
    (input.length ≤ 20 → (cleanCode input).length = 8 →
      (∀ ch ∈ (cleanCode input).toList, ch ∈ ROOM_CODE_CHARSET.toList) →
      parseRoomCode input = some (cleanCode input)) :=
  parseRoomCode_cases input

/-- Witness for C7 at concrete inputs: a valid code parses to its
canonical form and a 21-character input is rejected. -/
theorem parseRoomCode_spec_witness :
    parseRoomCode "GATE-2345" = some "GATE2345" ∧
    parseRoomCode "ABCDEFGHJKMNPQRSTUVWX" = none := by
  constructor
  · have h := (parseRoomCode_spec "GATE-2345").2.2.2 (by decide) (by decide) (by decide)
    rw [h]; decide
  · exact (parseRoomCode_spec "ABCDEFGHJKMNPQRSTUVWX").1 (by decide)

/-! ## Claim C6: display-form round trip -/

/-- C6 counterexample: The round trip is *not* stable under arbitrary
whitespace insertion: `"ABCD-EFGH"` is a valid display code, appending
twelve spaces leaves its cleaned form unchanged, yet the padded variant
(21 raw characters) is rejected by the 20-character guard, so
`Format(Parse(·))` is not unchanged. -/
theorem roomCode_roundtrip_counterexample :
    parseRoomCode "ABCD-EFGH" = some "ABCDEFGH" ∧
    cleanCode "ABCD-EFGH            " = cleanCode "ABCD-EFGH" ∧
    parseRoomCode "ABCD-EFGH            " = none := by
  refine ⟨by decide, by decide, by decide⟩

/-- C6 (amended): For every valid display code `d`,
`Format(Parse(d))` equals the canonicalized display form of `d`, and the
round trip is unchanged under inserting or removing dashes/whitespace
and case changes *as long as the varied raw input still fits the
20-character guard*. -/
theorem roomCode_roundtrip (d d' c : String) (h : parseRoomCode d = some c)
    (hvar : cleanCode d' = cleanCode d) (hlen : d'.length ≤ 20) :
    parseRoomCode d' = some c ∧ formatRoomCode c = formatRoomCode (cleanCode d) := by
  have s := parseRoomCode_cases d
  have hlen8 : (cleanCode d).length = 8 := by
    by_contra hh; rw [s.2.1 hh] at h; exact Option.noConfusion h
  have hall : ∀ ch ∈ (cleanCode d).toList, ch ∈ ROOM_CODE_CHARSET.toList := by
    by_contra hh; push_neg at hh; rw [s.2.2.1 hh] at h; exact Option.noConfusion h
  have h20 : d.length ≤ 20 := by
    by_contra hh; rw [s.1 (by omega)] at h; exact Option.noConfusion h
  have hd : parseRoomCode d = some (cleanCode d) := s.2.2.2 h20 hlen8 hall
  have hc : cleanCode d = c := by
    have := (hd.symm.trans h)
    exact Option.some.inj this
  have hd' : parseRoomCode d' = some (cleanCode d') :=
    (parseRoomCode_cases d').2.2.2 hlen (by rw [hvar]; exact hlen8)
      (by rw [hvar]; exact hall)
  constructor
  · rw [hd', hvar, hc]
  · rw [← hc]

/-- Witness for C6 (amended) at `d = "GATE-2345"`, variant
`d' = "gate 2345"`. -/
theorem roomCode_roundtrip_witness :
    parseRoomCode "GATE-2345" = some "GATE2345" ∧
    parseRoomCode "gate 2345" = some "GATE2345" ∧
    formatRoomCode "GATE2345" = formatRoomCode (cleanCode "GATE-2345") := by
  have h := roomCode_roundtrip "GATE-2345" "gate 2345" "GATE2345" (by decide) (by decide) (by decide)
  exact ⟨by decide, h.1, h.2⟩

/-! ## Claim C8: `generateRoomCode` shape and symbol distribution -/

/-- Every in-range index yields a charset member. -/
theorem roomCodeCharAt_mem {n : Nat} (h : n < 31) :
    roomCodeCharAt n ∈ ROOM_CODE_CHARSET.toList := by
  revert h; revert n; decide

/-- C8 counterexample: The alphabet has 31 symbols, not 32, and the
byte-to-symbol reduction `byte % ROOM_CODE_CHARSET.length` is *not*
unbiased: 9 of the 256 byte values map to the symbol `'A'` while only 8
map to `'J'`. -/
theorem generateRoomCode_bias_counterexample :
    ROOM_CODE_CHARSET.length = 31 ∧
    'A' ∈ ROOM_CODE_CHARSET.toList ∧ 'J' ∈ ROOM_CODE_CHARSET.toList ∧
    ((List.range 256).filter
      (fun b => roomCodeCharAt (b % ROOM_CODE_CHARSET.length) = 'A')).length = 9 ∧
    ((List.range 256).filter
      (fun b => roomCodeCharAt (b % ROOM_CODE_CHARSET.length) = 'J')).length = 8 := by
  refine ⟨by decide, by decide, by decide, by decide, by decide⟩

/-- C8 (amended): Generate() always produces `XXXX-XXXX` with all
8 symbols drawn from the fixed 31-symbol alphabet, and the byte-to-symbol
reduction gives each of the first 8 alphabet positions 9 of the 256 byte
values and each of the remaining 23 positions 8 of them (a modulo bias,
not perfect uniformity). -/
theorem generateRoomCode_shape_and_bias :
    (∀ bytes : Fin 8 → Nat, ∃ l1 l2 : List Char,
      l1.length = 4 ∧ l2.length = 4 ∧
      (∀ c ∈ l1 ++ l2, c ∈ ROOM_CODE_CHARSET.toList) ∧
      generateRoomCode bytes = (l1 ++ '-' :: l2).asString) ∧
    (∀ i : Fin 31, ((List.range 256).filter
      (fun b => b % ROOM_CODE_CHARSET.length = i.val)).length =
        if i.val < 8 then 9 else 8) := by
  constructor
  · intro bytes
    set l : List Char :=
      List.ofFn (fun i : Fin 8 => roomCodeCharAt (bytes i % ROOM_CODE_CHARSET.length)) with hl
    have hlen : l.length = 8 := by simp [hl]
    have hmem : ∀ c ∈ l, c ∈ ROOM_CODE_CHARSET.toList := by
      intro c hc
      rw [hl, List.mem_ofFn] at hc
      obtain ⟨i, hi⟩ := hc
      rw [← hi]
      exact roomCodeCharAt_mem (Nat.mod_lt _ (by decide))
    refine ⟨l.take 4, l.drop 4, by simp [hlen], by simp [hlen], ?_, ?_⟩
    · intro c hc
      rw [List.take_append_drop] at hc
      exact hmem c hc
    · have hd0 : l.asString.data = l := List.toList_asString l
      have hdata : (generateRoomCode bytes).data =
          (l.take 4 ++ '-' :: l.drop 4) := by
        simp only [generateRoomCode, ← hl]
        simp [String.data_append, String.take_eq, String.drop_eq, hd0]
      exact ((List.asString_eq).mpr hdata.symm).symm
  · decide

/-! ## Claim C2: join rejected at capacity -/

/-- C2: When a Room instance already holds `MAX_PEERS_PER_ROOM` (20)
live sessions, any further join is rejected with the capacity error, the
state is unchanged — no session is created, no peer id is assigned or
consumed — and the live peer count remains 20. -/
theorem room_full_rejected (r : Room) (name ip room : Option String) (sock : Nat)
    (h : r.sockets.length = MAX_PEERS_PER_ROOM) :
    Room.fetch r name ip room sock = (r, .roomFull) ∧
    (Room.fetch r name ip room sock).1.sockets.length = MAX_PEERS_PER_ROOM ∧
    (Room.fetch r name ip room sock).1.nextId = r.nextId := by
  have hge : r.sockets.length ≥ MAX_PEERS_PER_ROOM := h.ge
  have h1 : Room.fetch r name ip room sock = (r, .roomFull) := by
    simp [Room.fetch, hge]
  exact ⟨h1, by rw [h1]; exact h, by rw [h1]⟩

/-- Witness for C2: a concrete 20-peer room rejects the 21st join and is
left untouched. -/
theorem room_full_rejected_witness :
    roomFull20.sockets.length = MAX_PEERS_PER_ROOM ∧
    Room.fetch roomFull20 (some "Carol") (some "ip9") (some "GATE2345") 99 =
      (roomFull20, .roomFull) := by
  refine ⟨by decide, ?_⟩
  exact (room_full_rejected roomFull20 (some "Carol") (some "ip9") (some "GATE2345") 99
    (by decide)).1

/-! ## Claim C1: welcome snapshot precedes registration -/

/-- C1: For every join handled below capacity, the welcome sent to
the newcomer carries the member snapshot of the *pre-join* state, that
snapshot never contains the joining peer's own freshly minted id (under
the reachability invariant on peer ids), the first join into an empty
room sees an empty member list, and the invariant is preserved. -/
theorem welcome_excludes_self (r : Room) (name ip room : Option String) (sock : Nat)
    (hinv : Room.Inv r) (hcap : r.sockets.length < MAX_PEERS_PER_ROOM) :
    (∃ rest, (Room.fetch r name ip room sock).2 =
        JoinResult.accepted (mkPeerId r.nextId)
          ((sock, ServerMsg.welcome (mkPeerId r.nextId) r.memberList) :: rest)) ∧
    (∀ m ∈ r.memberList, m.peerId ≠ mkPeerId r.nextId) ∧
    (r.sockets = [] → r.memberList = []) ∧
    Room.Inv (Room.fetch r name ip room sock).1 := by
  have hncap : ¬ (r.sockets.length ≥ MAX_PEERS_PER_ROOM) := by omega
  have h1 : (Room.fetch r name ip room sock).1 =
      { r with
        nextId := r.nextId + 1
        sockets := r.sockets ++
          [(sock, some ⟨mkPeerId r.nextId, (jsOrStr name "Anonymous").take 32,
            jsOrStr ip "unknown", jsOrStr room ""⟩)] } := by
    simp [Room.fetch, hncap]
  refine ⟨?_, ?_, ?_, ?_⟩
  · refine ⟨(Room.fetch r name ip room sock).1.broadcast
      (.peerJoined (mkPeerId r.nextId) ((jsOrStr name "Anonymous").take 32)) sock, ?_⟩
    rw [h1]
    simp [Room.fetch, hncap, Room.memberList]
  · intro m hm heq
    rw [Room.memberList] at hm
    obtain ⟨p, hp, hmap⟩ := List.mem_filterMap.mp hm
    obtain ⟨info, hinfo, hmk⟩ := Option.map_eq_some'.mp hmap
    obtain ⟨k, hk, hpid⟩ := hinv p hp info hinfo
    have : m.peerId = mkPeerId k := by rw [← hmk, ← hpid]
    rw [this] at heq
    exact absurd (mkPeerId_inj heq) (by omega)
  · intro h
    rw [Room.memberList, h]
    rfl
  · intro p hp info hinfo
    rw [h1] at hp ⊢
    show ∃ k, k < r.nextId + 1 ∧ info.peerId = mkPeerId k
    rcases List.mem_append.mp hp with hl | hr
    · obtain ⟨k, hk, hpid⟩ := hinv p hl info hinfo
      exact ⟨k, by omega, hpid⟩
    · have hpeq : p = (sock, some ⟨mkPeerId r.nextId, (jsOrStr name "Anonymous").take 32,
          jsOrStr ip "unknown", jsOrStr room ""⟩) := by simpa using hr
      subst hpeq
      have hieq : info = ⟨mkPeerId r.nextId, (jsOrStr name "Anonymous").take 32,
          jsOrStr ip "unknown", jsOrStr room ""⟩ := by
        simpa using hinfo.symm
      rw [hieq]
      exact ⟨r.nextId, by omega, rfl⟩

/-- Witness for C1: the first peer joining the empty room receives a
welcome with an empty member list, and Bob joining after Alice receives
a welcome listing only Alice — never his own id `peer-2`. -/
theorem welcome_excludes_self_witness :
    Room.Inv Room.init ∧ Room.Inv roomA ∧
    (∃ rest, (Room.fetch Room.init (some "Alice") (some "ip1") (some "GATE2345") 1).2 =
        JoinResult.accepted (mkPeerId Room.init.nextId)
          ((1, ServerMsg.welcome (mkPeerId Room.init.nextId) Room.init.memberList) :: rest)) ∧
    Room.init.memberList = [] ∧
    (∃ rest, (Room.fetch roomA (some "Bob") (some "ip2") (some "GATE2345") 2).2 =
        JoinResult.accepted (mkPeerId roomA.nextId)
          ((2, ServerMsg.welcome (mkPeerId roomA.nextId) roomA.memberList) :: rest)) ∧
    roomA.memberList = [⟨"peer-1", "Alice"⟩] ∧
    mkPeerId roomA.nextId = "peer-2" := by
  have hinv0 : Room.Inv Room.init := by
    intro p hp info hinfo
    simp [Room.init] at hp
  have hinvA : Room.Inv roomA := by
    intro p hp info hinfo
    simp [roomA] at hp
    subst hp
    have : some (⟨"peer-1", "Alice", "ip1", "GATE2345"⟩ : SessionInfo) = some info := hinfo
    have hi := Option.some.inj this
    exact ⟨1, by decide, by rw [← hi]; decide⟩
  refine ⟨hinv0, hinvA, ?_, by decide, ?_, by decide, by decide⟩
  · exact (welcome_excludes_self Room.init (some "Alice") (some "ip1") (some "GATE2345") 1
      hinv0 (by decide)).1
  · exact (welcome_excludes_self roomA (some "Bob") (some "ip2") (some "GATE2345") 2
      hinvA (by decide)).1

/-! ## Claim C9: close/error cleanup and swallowed notification -/

/-- C9: On Close or Error of a registered session, the room removes
that peer's rate-window entry and attempts a `peer-left` broadcast
(carrying the departing peer's id) to exactly the other sockets; the
result is independent of the quota-shard notification outcome — success,
error, or unreachable shard all leave the same local state and the same
broadcast — and `webSocketError` behaves identically to
`webSocketClose`. -/
theorem close_cleanup (r : Room) (ws : Nat) (o : NotifyOutcome) (info : SessionInfo)
    (h : r.attachmentOf ws = some info) :
    Room.webSocketClose r ws o = Room.webSocketClose r ws .success ∧
    Room.webSocketError r ws o = Room.webSocketClose r ws o ∧
    (Room.webSocketClose r ws o).1 =
      { r with peerRates := alDel r.peerRates info.peerId } ∧
    alGet (Room.webSocketClose r ws o).1.peerRates info.peerId = none ∧
    (∀ p ∈ r.sockets, p.1 ≠ ws →
      (p.1, ServerMsg.peerLeft info.peerId) ∈ (Room.webSocketClose r ws o).2) ∧
    (∀ s ∈ (Room.webSocketClose r ws o).2,
      s.1 ≠ ws ∧ s.2 = ServerMsg.peerLeft info.peerId) := by
  have hc : Room.webSocketClose r ws o =
      ({ r with peerRates := alDel r.peerRates info.peerId },
        Room.broadcast { r with peerRates := alDel r.peerRates info.peerId }
          (.peerLeft info.peerId) ws) := by
    simp [Room.webSocketClose, h]
  have hcs : Room.webSocketClose r ws .success =
      ({ r with peerRates := alDel r.peerRates info.peerId },
        Room.broadcast { r with peerRates := alDel r.peerRates info.peerId }
          (.peerLeft info.peerId) ws) := by
    simp [Room.webSocketClose, h]
  have he : Room.webSocketError r ws o =
      ({ r with peerRates := alDel r.peerRates info.peerId },
        Room.broadcast { r with peerRates := alDel r.peerRates info.peerId }
          (.peerLeft info.peerId) ws) := by
    simp [Room.webSocketError, h]
  refine ⟨hc.trans hcs.symm, he.trans hc.symm, by rw [hc], ?_, ?_, ?_⟩
  · rw [hc]
    exact alGet_alDel_self r.peerRates info.peerId
  · intro p hp hne
    rw [hc]
    simp only [Room.broadcast]
    exact List.mem_filterMap.mpr ⟨p, hp, by simp [hne]⟩
  · intro s hs
    rw [hc] at hs
    simp only [Room.broadcast] at hs
    obtain ⟨p, hp, hif⟩ := List.mem_filterMap.mp hs
    by_cases hpe : p.1 = ws
    · simp [hpe] at hif
    · simp [hpe] at hif
      exact ⟨by rw [← hif]; exact hpe, by rw [← hif]⟩

/-- Witness for C9 on the two-peer room: closing Bob's socket with an
unreachable shard equals the successful-notification outcome, removes
no-longer-needed state, and notifies Alice only. -/
theorem close_cleanup_witness :
    roomAB.attachmentOf 2 = some ⟨"peer-2", "Bob", "ip2", "GATE2345"⟩ ∧
    Room.webSocketClose roomAB 2 .unreachable = Room.webSocketClose roomAB 2 .success ∧
    (Room.webSocketClose roomAB 2 .unreachable).2 = [(1, ServerMsg.peerLeft "peer-2")] := by
  have h := close_cleanup roomAB 2 .unreachable ⟨"peer-2", "Bob", "ip2", "GATE2345"⟩ (by decide)
  exact ⟨by decide, h.1, by decide⟩

/-! ## Claim C10: per-frame effect on the rate window -/

/-- Lemma: `isPeerAllowed` only ever touches the `peerRates` field. -/
theorem isPeerAllowed_fields (r : Room) (p : String) (now : Nat) :
    (Room.isPeerAllowed r p now).2.sockets = r.sockets ∧
    (Room.isPeerAllowed r p now).2.nextId = r.nextId := by
  simp only [Room.isPeerAllowed]
  rcases alGet r.peerRates p with _ | e
  · exact ⟨rfl, rfl⟩
  · dsimp only
    split_ifs <;> exact ⟨rfl, rfl⟩

/-- For a parsed frame from a registered sender, the handler's state
effect is exactly the `isPeerAllowed` effect, whatever the dispatch
outcome. -/
theorem webSocketMessage_state (r : Room) (ws : Nat) (frame : Frame) (now : Nat)
    (data : ClientData) (info : SessionInfo)
    (hns : ¬ (frame.isString = true ∧ frame.length > MAX_MESSAGE_SIZE))
    (hp : frame.parsed = some data) (hatt : Room.attachmentOf r ws = some info) :
    (Room.webSocketMessage r ws frame now).1 = (Room.isPeerAllowed r info.peerId now).2 := by
  simp only [Room.webSocketMessage, hp, hatt, if_neg hns]
  by_cases hb : (r.isPeerAllowed info.peerId now).1
  · simp [hb]
  · simp [hb]

/-- C10: An oversized string frame or an unparsable frame leaves the
room state (in particular the per-peer rate windows) unchanged, with
only an error reply to the sender; every successfully parsed frame from
a registered sender applies exactly the `isPeerAllowed` effect to the
rate map before type dispatch — whatever the dispatch outcome — and in
the in-window, under-limit case that effect is exactly one unit added to
the sender's count. -/
theorem frame_rate_effect (r : Room) (ws : Nat) (frame : Frame) (now : Nat) :
    (frame.isString = true → frame.length > MAX_MESSAGE_SIZE →
      Room.webSocketMessage r ws frame now =
        (r, [(ws, ServerMsg.error "Message too large")])) ∧
    (¬ (frame.isString = true ∧ frame.length > MAX_MESSAGE_SIZE) → frame.parsed = none →
      Room.webSocketMessage r ws frame now =
        (r, [(ws, ServerMsg.error "Invalid message")])) ∧
    (∀ data info, ¬ (frame.isString = true ∧ frame.length > MAX_MESSAGE_SIZE) →
      frame.parsed = some data → Room.attachmentOf r ws = some info →
      (Room.webSocketMessage r ws frame now).1.peerRates =
          (Room.isPeerAllowed r info.peerId now).2.peerRates ∧
        (Room.webSocketMessage r ws frame now).1.sockets = r.sockets ∧
        (Room.webSocketMessage r ws frame now).1.nextId = r.nextId) ∧
    (∀ data info e, ¬ (frame.isString = true ∧ frame.length > MAX_MESSAGE_SIZE) →
      frame.parsed = some data → Room.attachmentOf r ws = some info →
      alGet r.peerRates info.peerId = some e →
      now - e.windowStart ≤ PEER_MSG_WINDOW → e.count < PEER_MSG_LIMIT →
      alGet (Room.webSocketMessage r ws frame now).1.peerRates info.peerId =
        some ⟨e.count + 1, e.windowStart⟩) := by
  refine ⟨?_, ?_, ?_, ?_⟩
  · intro hs hl
    simp [Room.webSocketMessage, hs, hl]
  · intro hns hp
    simp [Room.webSocketMessage, hns, hp]
  · intro data info hns hp hatt
    rw [webSocketMessage_state r ws frame now data info hns hp hatt]
    exact ⟨rfl, (isPeerAllowed_fields r info.peerId now).1,
      (isPeerAllowed_fields r info.peerId now).2⟩
  · intro data info e hns hp hatt hget hwin hcnt
    rw [webSocketMessage_state r ws frame now data info hns hp hatt]
    have heff : (Room.isPeerAllowed r info.peerId now).2.peerRates =
        alSet r.peerRates info.peerId ⟨e.count + 1, e.windowStart⟩ := by
      simp only [Room.isPeerAllowed, hget]
      rw [if_neg (by omega), if_neg (by omega)]
    rw [heff]
    exact alGet_alSet_self r.peerRates info.peerId ⟨e.count + 1, e.windowStart⟩

/-- Witness for C10: an oversized frame leaves a concrete room
unchanged, while a parsed frame with an unknown type still burns one
rate unit. -/
theorem frame_rate_effect_witness :
    Room.webSocketMessage roomAB 1 ⟨true, 65537, none⟩ 0 =
      (roomAB, [(1, ServerMsg.error "Message too large")]) ∧
    alGet (Room.webSocketMessage roomAB 1
        ⟨true, 30, some ⟨.str "bogus", .absent, .absent, .absent, .absent⟩⟩ 0).1.peerRates
      "peer-1" = some ⟨1, 0⟩ := by
  constructor
  · exact (frame_rate_effect roomAB 1 ⟨true, 65537, none⟩ 0).1 rfl (by decide)
  · have h := (frame_rate_effect roomAB 1
      ⟨true, 30, some ⟨.str "bogus", .absent, .absent, .absent, .absent⟩⟩ 0).2.2.1
      ⟨.str "bogus", .absent, .absent, .absent, .absent⟩
      ⟨"peer-1", "Alice", "ip1", "GATE2345"⟩ (by decide) rfl (by decide)
    rw [h.1]
    decide


/-- Additional in-window messages on an open window advance the count by
one per message and are all allowed while the limit is respected. -/
theorem rateRun_within (p : String) (t0 : Nat) :
    ∀ (ts : List Nat) (r : Room) (c : Nat),
      alGet r.peerRates p = some ⟨c, t0⟩ →
      c + ts.length ≤ PEER_MSG_LIMIT →
      (∀ t ∈ ts, t - t0 ≤ PEER_MSG_WINDOW) →
      (Room.rateRun r p ts).1 = List.replicate ts.length true ∧
      alGet (Room.rateRun r p ts).2.peerRates p = some ⟨c + ts.length, t0⟩ := by
  intro ts
  induction ts with
  | nil =>
    intro r c hget _ _
    simpa [Room.rateRun] using hget
  | cons t rest ih =>
    intro r c hget hbound hwin
    have hcount : ¬ (c ≥ PEER_MSG_LIMIT) := by
      simp only [List.length_cons] at hbound
      omega
    have hnr : ¬ (t - t0 > PEER_MSG_WINDOW) := by
      have := hwin t (by simp)
      omega
    have hstep : Room.isPeerAllowed r p t =
        (true, { r with peerRates := alSet r.peerRates p ⟨c + 1, t0⟩ }) := by
      simp [Room.isPeerAllowed, hget, hnr, hcount]
    have hget1 : alGet ({ r with peerRates := alSet r.peerRates p ⟨c + 1, t0⟩ } : Room).peerRates p =
        some ⟨c + 1, t0⟩ := alGet_alSet_self r.peerRates p ⟨c + 1, t0⟩
    have hrest := ih { r with peerRates := alSet r.peerRates p ⟨c + 1, t0⟩ } (c + 1) hget1
      (by simp only [List.length_cons] at hbound; omega)
      (fun u hu => hwin u (by simp [hu]))
    constructor
    · simp only [Room.rateRun, hstep]
      simp [hrest.1, List.replicate_succ]
    · simp only [Room.rateRun, hstep]
      have : c + 1 + rest.length = c + (rest.length + 1) := by omega
      simpa [this] using hrest.2

/-- C3: Starting from a fresh window, a peer's first message at `t0`
and 29 further messages within the 10-second window are all allowed (30
in total); a 31st message still inside the window is refused — and the
handler then answers only that sender with the rate-limit error, leaving
the state untouched — while a message after the window has elapsed is
allowed again. -/
theorem rate_limit_window (r : Room) (p : String) (t0 : Nat) (ts : List Nat)
    (hfresh : alGet r.peerRates p = none)
    (hlen : ts.length = PEER_MSG_LIMIT - 1)
    (hwin : ∀ t ∈ ts, t - t0 ≤ PEER_MSG_WINDOW) :
    (Room.rateRun r p (t0 :: ts)).1 = List.replicate PEER_MSG_LIMIT true ∧
    alGet (Room.rateRun r p (t0 :: ts)).2.peerRates p = some ⟨PEER_MSG_LIMIT, t0⟩ ∧
    (∀ t31, t31 - t0 ≤ PEER_MSG_WINDOW →
      Room.isPeerAllowed (Room.rateRun r p (t0 :: ts)).2 p t31 =
        (false, (Room.rateRun r p (t0 :: ts)).2)) ∧
    (∀ t31 ws frame data info, t31 - t0 ≤ PEER_MSG_WINDOW →
      ¬ (frame.isString = true ∧ frame.length > MAX_MESSAGE_SIZE) →
      frame.parsed = some data →
      Room.attachmentOf (Room.rateRun r p (t0 :: ts)).2 ws = some info →
      info.peerId = p →
      Room.webSocketMessage (Room.rateRun r p (t0 :: ts)).2 ws frame t31 =
        ((Room.rateRun r p (t0 :: ts)).2,
          [(ws, ServerMsg.error "Rate limited. Slow down.")])) ∧
    (∀ t', t' - t0 > PEER_MSG_WINDOW →
      (Room.isPeerAllowed (Room.rateRun r p (t0 :: ts)).2 p t').1 = true) := by
  have hstep0 : Room.isPeerAllowed r p t0 =
      (true, { r with peerRates := alSet r.peerRates p ⟨1, t0⟩ }) := by
    simp [Room.isPeerAllowed, hfresh]
  have hget1 : alGet ({ r with peerRates := alSet r.peerRates p ⟨1, t0⟩ } : Room).peerRates p =
      some ⟨1, t0⟩ := alGet_alSet_self r.peerRates p ⟨1, t0⟩
  have hrest := rateRun_within p t0 ts { r with peerRates := alSet r.peerRates p ⟨1, t0⟩ } 1
    hget1 (by rw [hlen]; decide) hwin
  have hrun1 : (Room.rateRun r p (t0 :: ts)).1 =
      true :: (Room.rateRun { r with peerRates := alSet r.peerRates p ⟨1, t0⟩ } p ts).1 := by
    simp [Room.rateRun, hstep0]
  have hrun2 : (Room.rateRun r p (t0 :: ts)).2 =
      (Room.rateRun { r with peerRates := alSet r.peerRates p ⟨1, t0⟩ } p ts).2 := by
    simp [Room.rateRun, hstep0]
  have hfinal : alGet (Room.rateRun r p (t0 :: ts)).2.peerRates p =
      some ⟨PEER_MSG_LIMIT, t0⟩ := by
    rw [hrun2, hrest.2, hlen]
    have h30 : 1 + (PEER_MSG_LIMIT - 1) = PEER_MSG_LIMIT := by decide
    rw [h30]
  have hlimited : ∀ t31, t31 - t0 ≤ PEER_MSG_WINDOW →
      Room.isPeerAllowed (Room.rateRun r p (t0 :: ts)).2 p t31 =
        (false, (Room.rateRun r p (t0 :: ts)).2) := by
    intro t31 ht31
    simp [Room.isPeerAllowed, hfinal, Nat.not_lt.mpr ht31]
  refine ⟨?_, hfinal, hlimited, ?_, ?_⟩
  · rw [hrun1, hrest.1, hlen]
    decide
  · intro t31 ws frame data info ht31 hns hp hatt hpid
    have hlim := hlimited t31 ht31
    simp only [Room.webSocketMessage, hp, hatt, if_neg hns, hpid, hlim]
    rfl
  · intro t' ht'
    simp [Room.isPeerAllowed, hfinal, ht']

/-- Witness for C3: 30 messages at time 0 all pass, the 31st at time
5000 is refused, and a message at 10001 passes again. -/
theorem rate_limit_window_witness :
    (Room.rateRun Room.init "peer-1" (0 :: List.replicate 29 0)).1 =
      List.replicate PEER_MSG_LIMIT true ∧
    alGet (Room.rateRun Room.init "peer-1" (0 :: List.replicate 29 0)).2.peerRates "peer-1" =
      some ⟨PEER_MSG_LIMIT, 0⟩ ∧
    (Room.isPeerAllowed
      (Room.rateRun Room.init "peer-1" (0 :: List.replicate 29 0)).2 "peer-1" 5000).1 = false ∧
    (Room.isPeerAllowed
      (Room.rateRun Room.init "peer-1" (0 :: List.replicate 29 0)).2 "peer-1" 10001).1 = true := by
  have h := rate_limit_window Room.init "peer-1" 0 (List.replicate 29 0) rfl (by decide)
    (by decide)
  refine ⟨h.1, h.2.1, ?_, h.2.2.2.2 10001 (by decide)⟩
  rw [h.2.2.1 5000 (by decide)]

/-! ## Claim C5: delivery errors and membership probing -/

/-- C5 counterexample: Forwarding an offer from Alice (socket 1) to
the existing peer `peer-2` produces *no* reply to the sender at all (the
forward goes to the target unguarded, so a failing send also produces no
reply — there is no catch on that path), while forwarding to the absent
`peer-9` produces the generic error frame; the sender-visible replies in
the two outcomes are *not* identical. -/
theorem delivery_error_counterexample :
    (Room.webSocketMessage roomAB 1 (offerFrame "peer-2") 0).2 =
      [(2, ServerMsg.forwardSdp "offer" "peer-1" "v=0 sdp")] ∧
    ((Room.webSocketMessage roomAB 1 (offerFrame "peer-2") 0).2.filter
      (fun m => m.1 = 1) = []) ∧
    ((Room.webSocketMessage roomAB 1 (offerFrame "peer-9") 0).2.filter
      (fun m => m.1 = 1) = [(1, ServerMsg.error "Failed to deliver message")]) := by
  refine ⟨by decide, by decide, by decide⟩

/-- C5 (amended): For every offer/answer/ice-candidate message with
a syntactically valid `to` field: when the target id is not found the
sender receives exactly the single generic `Failed to deliver message`
error — the only delivery-error text the handler ever emits; when the
target exists, any reply to the sender is a payload-validation error
(`Invalid SDP` / `Invalid ICE candidate`), and with a valid payload the
handler emits only the forward to the target and no reply to the sender
at all, whether or not that send succeeds.  A prober therefore never
sees a target-specific error text, though presence of a peer is
observable through the presence or absence of the generic error. -/
theorem delivery_error_uniform (r : Room) (ws : Nat) (info : SessionInfo)
    (data : ClientData) (now : Nat) (t s : String)
    (hty : data.type = .str t)
    (ht : t = "offer" ∨ t = "answer" ∨ t = "ice-candidate")
    (hto : data.«to» = .str s)
    (hs : ¬ (s = "" ∨ s.length > 32)) :
    (Room.findPeerSocket r s = none →
      Room.dispatch r ws info data now =
        [(ws, ServerMsg.error "Failed to deliver message")]) ∧
    (∀ target, Room.findPeerSocket r s = some target → target ≠ ws →
      ∀ m ∈ Room.dispatch r ws info data now, m.1 = ws →
        m.2 = ServerMsg.error "Invalid SDP" ∨
        m.2 = ServerMsg.error "Invalid ICE candidate") ∧
    (∀ target sdp, Room.findPeerSocket r s = some target →
      (t = "offer" ∨ t = "answer") → data.sdp = .str sdp → sdp.length ≤ MAX_SDP_SIZE →
      Room.dispatch r ws info data now =
        [(target, ServerMsg.forwardSdp t info.peerId sdp)]) ∧
    (∀ target, Room.findPeerSocket r s = some target →
      t = "ice-candidate" → data.candidate.orEmptyLen ≤ MAX_ICE_SIZE →
      Room.dispatch r ws info data now =
        [(target, ServerMsg.forwardIce info.peerId data.candidate)]) := by
  refine ⟨?_, ?_, ?_, ?_⟩
  · intro hfind
    simp [Room.dispatch, hty, ht, hto, hs, hfind]
  · intro target hfind htne m hm hmws
    simp only [Room.dispatch, hty, hto] at hm
    rw [if_pos ht, if_neg hs, hfind] at hm
    simp only [] at hm
    by_cases hoa : t = "offer" ∨ t = "answer"
    · rw [if_pos hoa] at hm
      cases hsdp : data.sdp with
      | str sdp =>
        rw [hsdp] at hm
        simp only [] at hm
        by_cases hlen : sdp.length > MAX_SDP_SIZE
        · rw [if_pos hlen] at hm
          simp at hm
          exact Or.inl (by rw [hm])
        · rw [if_neg hlen] at hm
          simp at hm
          rw [hm] at hmws; exact absurd hmws htne
      | absent =>
        rw [hsdp] at hm
        simp only [] at hm
        simp at hm
        exact Or.inl (by rw [hm])
      | other b =>
        rw [hsdp] at hm
        simp only [] at hm
        simp at hm
        exact Or.inl (by rw [hm])
    · rw [if_neg hoa] at hm
      by_cases hlen : data.candidate.orEmptyLen > MAX_ICE_SIZE
      · rw [if_pos hlen] at hm
        simp at hm
        exact Or.inr (by rw [hm])
      · rw [if_neg hlen] at hm
        simp at hm
        rw [hm] at hmws; exact absurd hmws htne
  · intro target sdp hfind hoa hsdp hslen
    simp only [Room.dispatch, hty, hto]
    rw [if_pos ht, if_neg hs, hfind]
    simp only []
    rw [if_pos hoa, hsdp]
    simp only []
    rw [if_neg (by omega)]
  · intro target hfind hice hicelen
    have hni : ¬ (t = "offer" ∨ t = "answer") := by
      subst hice; decide
    simp only [Room.dispatch, hty, hto]
    rw [if_pos ht, if_neg hs, hfind]
    simp only []
    rw [if_neg hni, if_neg (by omega)]

/-- Witness for C5 (amended): in the two-peer room, an offer to the
absent `peer-9` yields exactly the generic error, and an offer to the
present `peer-2` yields only the forward. -/
theorem delivery_error_uniform_witness :
    Room.dispatch roomAB 1 ⟨"peer-1", "Alice", "ip1", "GATE2345"⟩
      ⟨.str "offer", .str "peer-9", .str "v=0 sdp", .absent, .absent⟩ 0 =
      [(1, ServerMsg.error "Failed to deliver message")] ∧
    Room.dispatch roomAB 1 ⟨"peer-1", "Alice", "ip1", "GATE2345"⟩
      ⟨.str "offer", .str "peer-2", .str "v=0 sdp", .absent, .absent⟩ 0 =
      [(2, ServerMsg.forwardSdp "offer" "peer-1" "v=0 sdp")] := by
  constructor
  · exact (delivery_error_uniform roomAB 1 ⟨"peer-1", "Alice", "ip1", "GATE2345"⟩
      ⟨.str "offer", .str "peer-9", .str "v=0 sdp", .absent, .absent⟩ 0 "offer" "peer-9"
      rfl (Or.inl rfl) rfl (by decide)).1 (by decide)
  · exact (delivery_error_uniform roomAB 1 ⟨"peer-1", "Alice", "ip1", "GATE2345"⟩
      ⟨.str "offer", .str "peer-2", .str "v=0 sdp", .absent, .absent⟩ 0 "offer" "peer-2"
      rfl (Or.inl rfl) rfl (by decide)).2.2.1 2 "v=0 sdp" (by decide) (Or.inl rfl) rfl
      (by decide)

/-! ## Claim C4: quota shard TTL pruning -/

/-- Characterization of a `/check` call: the IP's stale entries are
pruned first, and the response reports the live count against the
limit. -/
theorem quota_check_resp (cl : ConnectionLimiter) (ip : String) (rc : JField) (now : Nat)
    (hip : ip ≠ "") :
    (ConnectionLimiter.fetch cl .check (some ⟨.str ip, rc⟩) now).2 =
      LimiterResp.checkOk ((liveRooms cl ip now).length < MAX_ROOMS_PER_IP)
        (liveRooms cl ip now).length MAX_ROOMS_PER_IP ∧
    alGet (ConnectionLimiter.fetch cl .check (some ⟨.str ip, rc⟩) now).1.connections ip =
      (if (liveRooms cl ip now).length = 0 then none else some (liveRooms cl ip now)) := by
  cases hconn : alGet cl.connections ip with
  | none =>
    have hlive : liveRooms cl ip now = [] := by
      simp [liveRooms, hconn]
    have hprune : cl.pruneExpired ip now = cl := by
      simp [ConnectionLimiter.pruneExpired, hconn]
    constructor
    · simp [ConnectionLimiter.fetch, hip, hprune, hconn, hlive]
    · simp [ConnectionLimiter.fetch, hip, hprune, hconn, hlive]
  | some rooms =>
    have hlive : liveRooms cl ip now =
        rooms.filter (fun p => !(now - p.2 > CONNECTION_TTL)) := by
      simp [liveRooms, hconn]
    by_cases hz : (rooms.filter (fun p => !(now - p.2 > CONNECTION_TTL))).length = 0
    · have hprune : cl.pruneExpired ip now = ⟨alDel cl.connections ip⟩ := by
        simp [ConnectionLimiter.pruneExpired, hconn, hz]
      have hget : alGet (alDel cl.connections ip) ip = none := alGet_alDel_self _ _
      constructor
      · simp [ConnectionLimiter.fetch, hip, hprune, hget, hlive, hz]
      · simp [ConnectionLimiter.fetch, hip, hprune, hget, hlive, hz]
    · have hprune : cl.pruneExpired ip now =
          ⟨alSet cl.connections ip (rooms.filter (fun p => !(now - p.2 > CONNECTION_TTL)))⟩ := by
        simp [ConnectionLimiter.pruneExpired, hconn, hz]
      have hget : alGet (alSet cl.connections ip
          (rooms.filter (fun p => !(now - p.2 > CONNECTION_TTL)))) ip =
          some (rooms.filter (fun p => !(now - p.2 > CONNECTION_TTL))) :=
        alGet_alSet_self _ _ _
      constructor
      · simp [ConnectionLimiter.fetch, hip, hprune, hget, hlive]
      · simp [ConnectionLimiter.fetch, hip, hprune, hget, hlive, hz]

/-- C4: A quota entry older than the 2-hour TTL is excluded from the
IP's live count: `Check` prunes the IP's stale entries first — the
post-state keeps exactly the live ones — and reports
`allowed = liveCount < 10` together with the live count and the limit
10, with no disconnect required; and a `Check` following any other call
(`Connect`/`Disconnect`/`Check`) on any state likewise counts only the
entries within TTL at that moment. -/
theorem quota_ttl_prune (cl : ConnectionLimiter) (ip : String) (rc : JField) (now : Nat)
    (hip : ip ≠ "") :
    (ConnectionLimiter.fetch cl .check (some ⟨.str ip, rc⟩) now).2 =
      LimiterResp.checkOk ((liveRooms cl ip now).length < MAX_ROOMS_PER_IP)
        (liveRooms cl ip now).length MAX_ROOMS_PER_IP ∧
    alGet (ConnectionLimiter.fetch cl .check (some ⟨.str ip, rc⟩) now).1.connections ip =
      (if (liveRooms cl ip now).length = 0 then none else some (liveRooms cl ip now)) ∧
    (∀ code tj, (code, tj) ∈ (alGet cl.connections ip).getD [] →
      now - tj > CONNECTION_TTL → (code, tj) ∉ liveRooms cl ip now) ∧
    (∀ path body1 now1 now2,
      (ConnectionLimiter.fetch (ConnectionLimiter.fetch cl path body1 now1).1 .check
          (some ⟨.str ip, rc⟩) now2).2 =
        LimiterResp.checkOk
          ((liveRooms (ConnectionLimiter.fetch cl path body1 now1).1 ip now2).length <
            MAX_ROOMS_PER_IP)
          (liveRooms (ConnectionLimiter.fetch cl path body1 now1).1 ip now2).length
          MAX_ROOMS_PER_IP) := by
  refine ⟨(quota_check_resp cl ip rc now hip).1, (quota_check_resp cl ip rc now hip).2, ?_, ?_⟩
  · intro code tj hmem hstale
    simp [liveRooms, List.mem_filter, hstale]
  · intro path body1 now1 now2
    exact (quota_check_resp (ConnectionLimiter.fetch cl path body1 now1).1 ip rc now2 hip).1

/-- Witness for C4: at `now = 7200001` the entry joined at time 0 is
stale (2h + 1ms old) and is dropped with no disconnect ever received,
while the entry joined at time 1 still counts; the check reports
`{allowed: true, count: 1, limit: 10}`. -/
theorem quota_ttl_prune_witness :
    (ConnectionLimiter.fetch limiterStale .check
        (some ⟨.str "1.2.3.4", .absent⟩) 7200001).2 =
      LimiterResp.checkOk true 1 10 ∧
    alGet (ConnectionLimiter.fetch limiterStale .check
        (some ⟨.str "1.2.3.4", .absent⟩) 7200001).1.connections "1.2.3.4" =
      some [("ROOMBBBB", 1)] := by
  have h := quota_ttl_prune limiterStale "1.2.3.4" .absent 7200001 (by decide)
  constructor
  · rw [h.1]
    decide
  · rw [h.2.1]
    decide
